import Mathlib

/-!
Shallow embedding of the core of the babylon-toolkit crate
`babylon-tbv-rust-wasm`: the script assembler (`connectors/mod.rs`), the
pegin payout connector (`connectors/pegin_payout.rs`) and the unfunded
peg-in transaction builder (`transactions/pegin.rs`).

Bitcoin scripts are modelled as lists of byte values (`List Nat`, each
entry < 256 by construction).  Operations performed entirely inside the
external rust-bitcoin / secp256k1 libraries — curve validity of an x-only
key, the taproot tweak / address / script-pubkey derivation chain, and the
display string of a key-parse error — are abstracted as parameters
collected in a `BitcoinLib` structure; every theorem quantifies over them.
Everything the repository itself computes is embedded faithfully.
-/

namespace BabylonVault

/-- Opcode byte OP_CHECKSIG (0xac). -/
def OP_CHECKSIG : Nat := 0xac

/-- Opcode byte OP_CHECKSIGVERIFY (0xad). -/
def OP_CHECKSIGVERIFY : Nat := 0xad

/-- Opcode byte OP_CHECKSIGADD (0xba). -/
def OP_CHECKSIGADD : Nat := 0xba

/-- Opcode byte OP_NUMEQUAL (0x9c). -/
def OP_NUMEQUAL : Nat := 0x9c

/-- Opcode byte OP_NUMEQUALVERIFY (0x9d). -/
def OP_NUMEQUALVERIFY : Nat := 0x9d

/-- Model of `bitcoin::key::XOnlyPublicKey`: a 32-byte x-coordinate.
The byte-length invariant is part of the Rust type. -/
@[ext] structure XOnlyPublicKey where
  bytes : List Nat
  bytes_len : bytes.length = 32

instance : DecidableEq XOnlyPublicKey := fun a b =>
  if h : a.bytes = b.bytes then .isTrue (XOnlyPublicKey.ext h)
  else .isFalse (fun hab => h (congrArg XOnlyPublicKey.bytes hab))

/-- Pushing a 32-byte x-only key in the `script!` macro emits
OP_PUSHBYTES_32 (0x20) followed by the key bytes. -/
def pushKey (k : XOnlyPublicKey) : List Nat := 0x20 :: k.bytes

/-- Model of the byte-emitting loop of rust-bitcoin `write_scriptint`:
little-endian magnitude bytes, with the sign carried either in the top bit
of the last byte or in an extra trailing sign byte. -/
def scriptIntLoop (a : Nat) (neg : Bool) : List Nat :=
  if h : 0xFF < a then (a % 256) :: scriptIntLoop (a / 256) neg
  else if 0x80 ≤ a then [a, if neg then 0x80 else 0x00]
  else [if neg then a + 0x80 else a]
termination_by a
decreasing_by exact Nat.div_lt_self (by omega) (by omega)

/-- Model of rust-bitcoin `write_scriptint` applied to an i64 value. -/
def scriptIntBytes (n : Int) : List Nat :=
  if n = 0 then [] else scriptIntLoop n.natAbs (decide (n < 0))

/-- Model of rust-bitcoin `Builder::push_int`, used by the `script!` macro
for `{ n as i64 }`: OP_1NEGATE / OP_PUSHNUM for -1 and 1..=16, OP_0 for 0,
otherwise a minimal data push of the script-integer encoding. -/
def pushInt (data : Int) : List Nat :=
  if data = -1 ∨ (1 ≤ data ∧ data ≤ 16) then [(data + 0x50).toNat]
  else if data = 0 then [0x00]
  else (scriptIntBytes data).length :: scriptIntBytes data

/-- Decoder of a little-endian script-number byte sequence (checked only
against our own encoder, to state that the pushed threshold integer equals
the key count). -/
def decodeScriptNum : List Nat → Int
  | [] => 0
  | [b] => if 0x80 ≤ b then -(((b - 0x80) : Nat) : Int) else (b : Int)
  | b :: c :: rest => (b : Int) + 256 * decodeScriptNum (c :: rest)

/-- Decoder of the integer pushed by `pushInt`: one OP_0 / OP_1NEGATE /
OP_PUSHNUM opcode, or a length-prefixed script-number data push. -/
def decodeThreshold : List Nat → Option Int
  | [b] =>
    if b = 0x00 then some 0
    else if 0x51 ≤ b ∧ b ≤ 0x60 then some ((b : Int) - 0x50)
    else if b = 0x4f then some (-1)
    else none
  | len :: rest =>
    if rest.length = len ∧ 1 ≤ len then some (decodeScriptNum rest) else none
  | [] => none

/-- Model of `build_multisig_script` (connectors/mod.rs): first key with
OP_CHECKSIG, each further key with OP_CHECKSIGADD, then the key count and
OP_NUMEQUALVERIFY or OP_NUMEQUAL depending on the `verify` flag. -/
def build_multisig_script (pubkeys : List XOnlyPublicKey) (verify : Bool) :
    Except String (List Nat) :=
  match pubkeys with
  | [] => .error "At least one public key is required for multisig"
  | k0 :: rest =>
    let firstPart := pushKey k0 ++ [OP_CHECKSIG]
    let addPart := rest.flatMap (fun pk => pushKey pk ++ [OP_CHECKSIGADD])
    let thresholdPart := pushInt ((k0 :: rest).length : Int) ++
      [if verify then OP_NUMEQUALVERIFY else OP_NUMEQUAL]
    .ok (firstPart ++ addPart ++ thresholdPart)

/-- Model of `combine_script_components` (connectors/mod.rs): byte-level
concatenation of the components in order. -/
def combine_script_components (components : List (List Nat)) : List Nat :=
  components.foldl (fun combined component => combined ++ component) []

/-- Model of `PeginPayoutConnector` (connectors/pegin_payout.rs). -/
structure PeginPayoutConnector where
  depositor : XOnlyPublicKey
  vault_provider : XOnlyPublicKey
  vault_keepers : List XOnlyPublicKey
  universal_challengers : List XOnlyPublicKey
deriving DecidableEq

/-- Model of `PeginPayoutConnector::new`: rejects an empty vault-keeper
list, otherwise stores the four key collections unchanged. -/
def PeginPayoutConnector.new (depositor vault_provider : XOnlyPublicKey)
    (vault_keepers universal_challengers : List XOnlyPublicKey) :
    Except String PeginPayoutConnector :=
  if vault_keepers.isEmpty then .error "At least one vault keeper is required"
  else .ok ⟨depositor, vault_provider, vault_keepers, universal_challengers⟩

/-- Model of `PeginPayoutConnector::generate_payout_script`.  The Rust code
aborts (`.expect`) when the multisig build fails; that branch is modelled
as `none`. -/
def generate_payout_script (c : PeginPayoutConnector) : Option (List Nat) :=
  let role_sigs := pushKey c.depositor ++ [OP_CHECKSIGVERIFY] ++
    pushKey c.vault_provider ++ [OP_CHECKSIGVERIFY]
  let all_challengers := c.vault_keepers ++ c.universal_challengers
  match build_multisig_script all_challengers false with
  | .error _ => none
  | .ok challenger_multisig =>
    some (combine_script_components [role_sigs, challenger_multisig])

/-- Networks producible by `PeginTx::parse_network` (rust-bitcoin
`Network` restricted to the constructors that function returns). -/
inductive Network
  | bitcoin
  | testnet
  | regtest
  | signet
deriving DecidableEq

/-- Model of `error.rs` `Error` (the `thiserror` enum). -/
inductive Error
  | InvalidTransaction (msg : String)
  | InvalidPublicKey (msg : String)
  | InvalidNetwork (msg : String)
  | ConnectorError (msg : String)
deriving DecidableEq

instance {ε α : Type} [DecidableEq ε] [DecidableEq α] : DecidableEq (Except ε α) :=
  fun a b =>
    match a, b with
    | .ok x, .ok y =>
      if h : x = y then .isTrue (by rw [h]) else .isFalse (by simp [h])
    | .error x, .error y =>
      if h : x = y then .isTrue (by rw [h]) else .isFalse (by simp [h])
    | .ok _, .error _ => .isFalse (by simp)
    | .error _, .ok _ => .isFalse (by simp)

/-- Abstraction of the external rust-bitcoin / secp256k1 operations this
crate calls but does not implement: whether 32 bytes are a valid secp256k1
x-coordinate, the display string of the key-parse error for a given input,
and the taproot spend-info → address → script-pubkey derivation chain from
a leaf script and a network (deterministic in both). -/
structure BitcoinLib where
  isValidX : List Nat → Bool
  parseErrMsg : String → String
  taprootScriptPubkey : List Nat → Network → List Nat

/-- Model of the `Connector` trait chain `generate_taproot_spend_info` →
`generate_taproot_address` → `generate_taproot_script_pubkey`: the payout
script is fed to the external taproot derivation.  The abort inside
`generate_payout_script` propagates as `none`. -/
def generate_taproot_script_pubkey (lib : BitcoinLib)
    (c : PeginPayoutConnector) (network : Network) : Option (List Nat) :=
  (generate_payout_script c).map (fun s => lib.taprootScriptPubkey s network)

/-- Model of rust-bitcoin `TxIn` (only ever used as an empty list here). -/
structure TxIn
deriving DecidableEq

/-- Model of rust-bitcoin `TxOut`: satoshi value and script-pubkey. -/
structure TxOut where
  value : Nat
  script_pubkey : List Nat
deriving DecidableEq

/-- Model of rust-bitcoin `Transaction` as used by this crate. -/
structure Transaction where
  version : Int
  lock_time : Nat
  input : List TxIn
  output : List TxOut
deriving DecidableEq

/-- Model of `PegInParams` (transactions/pegin.rs). -/
structure PegInParams where
  depositor_pubkey : String
  vault_provider_pubkey : String
  vault_keeper_pubkeys : List String
  universal_challenger_pubkeys : List String
  pegin_amount : Nat
  network : String

/-- ASCII lowercase of one character (agrees with Rust `to_lowercase` on
every character relevant to the recognized network names). -/
def toLowerChar (c : Char) : Char :=
  if 'A' ≤ c ∧ c ≤ 'Z' then Char.ofNat (c.toNat + 32) else c

/-- Character-wise lowercase of a string. -/
def toLowerStr (s : String) : String := ⟨s.data.map toLowerChar⟩

/-- Model of `PeginTx::parse_network`: lowercase, then match the five
recognized names; any other string is an `InvalidNetwork` error carrying
the original string. -/
def parse_network (network : String) : Except Error Network :=
  let s := toLowerStr network
  if s = "bitcoin" ∨ s = "mainnet" then .ok .bitcoin
  else if s = "testnet" then .ok .testnet
  else if s = "regtest" then .ok .regtest
  else if s = "signet" then .ok .signet
  else .error (.InvalidNetwork network)

/-- Value of one hex digit, upper or lower case. -/
def hexDigitVal? (c : Char) : Option Nat :=
  if '0' ≤ c ∧ c ≤ '9' then some (c.toNat - '0'.toNat)
  else if 'a' ≤ c ∧ c ≤ 'f' then some (c.toNat - 'a'.toNat + 10)
  else if 'A' ≤ c ∧ c ≤ 'F' then some (c.toNat - 'A'.toNat + 10)
  else none

/-- Hex decoding of an even-length character list into bytes. -/
def hexPairs? : List Char → Option (List Nat)
  | [] => some []
  | [_] => none
  | c1 :: c2 :: rest =>
    match hexDigitVal? c1, hexDigitVal? c2, hexPairs? rest with
    | some hi, some lo, some tl => some ((hi * 16 + lo) :: tl)
    | _, _, _ => none

/-- Model of `XOnlyPublicKey::from_str`: 64 hex characters decoding to 32
bytes that the external library accepts as a valid x-coordinate. -/
def parseXOnly? (lib : BitcoinLib) (s : String) : Option XOnlyPublicKey :=
  if s.data.length = 64 then
    match hexPairs? s.data with
    | some bs =>
      if h : bs.length = 32 then
        if lib.isValidX bs then some ⟨bs, h⟩ else none
      else none
    | none => none
  else none

/-- Model of `PeginTx::parse_pubkey`: on failure the error message is the
offending string followed by the library's error display. -/
def parse_pubkey (lib : BitcoinLib) (s : String) : Except Error XOnlyPublicKey :=
  match parseXOnly? lib s with
  | some k => .ok k
  | none => .error (.InvalidPublicKey (s ++ ": " ++ lib.parseErrMsg s))

/-- Model of `iter().map(parse_pubkey).collect::<Result<Vec<_>, _>>()`:
left-to-right, first error wins. -/
def parse_pubkeys (lib : BitcoinLib) : List String → Except Error (List XOnlyPublicKey)
  | [] => .ok []
  | s :: rest =>
    match parse_pubkey lib s with
    | .error e => .error e
    | .ok k =>
      match parse_pubkeys lib rest with
      | .error e => .error e
      | .ok ks => .ok (k :: ks)

/-- Model of `PeginTx::new_unfunded_peg_in_tx`.  The outer `Option` models
the (unreachable) process abort inside script generation; `some (.error e)`
is a returned `Err`, `some (.ok tx)` a returned `Ok`. -/
def new_unfunded_peg_in_tx (lib : BitcoinLib) (params : PegInParams) :
    Option (Except Error Transaction) :=
  match parse_network params.network with
  | .error e => some (.error e)
  | .ok network =>
  match parse_pubkey lib params.depositor_pubkey with
  | .error e => some (.error e)
  | .ok depositor =>
  match parse_pubkey lib params.vault_provider_pubkey with
  | .error e => some (.error e)
  | .ok vault_provider =>
  match parse_pubkeys lib params.vault_keeper_pubkeys with
  | .error e => some (.error e)
  | .ok vault_keepers =>
  match parse_pubkeys lib params.universal_challenger_pubkeys with
  | .error e => some (.error e)
  | .ok universal_challengers =>
  match PeginPayoutConnector.new depositor vault_provider vault_keepers
      universal_challengers with
  | .error e => some (.error (.ConnectorError e))
  | .ok connector =>
  match generate_taproot_script_pubkey lib connector network with
  | none => none
  | some spk =>
    some (.ok
      { version := 2
        lock_time := 0
        input := []
        output := [{ value := params.pegin_amount, script_pubkey := spk }] })

/-- Ordered list of every key string of a parameter set, in the order the
builder parses them. -/
def allKeyStrings (params : PegInParams) : List String :=
  params.depositor_pubkey :: params.vault_provider_pubkey ::
    (params.vault_keeper_pubkeys ++ params.universal_challenger_pubkeys)

/-- Discriminator used to state that a result is not an InvalidPublicKey
error. -/
def resultIsInvalidPublicKey : Option (Except Error Transaction) → Bool
  | some (.error (.InvalidPublicKey _)) => true
  | _ => false

/-- Library instance for concrete witnesses: every 32-byte value counts as
a valid x-coordinate and the taproot derivation returns the empty script. -/
def trivialLib : BitcoinLib :=
  { isValidX := fun _ => true
    parseErrMsg := fun _ => "malformed public key"
    taprootScriptPubkey := fun _ _ => [] }

/-- Key with all-zero coordinate bytes, for witnesses. -/
def zeroKey : XOnlyPublicKey := ⟨List.replicate 32 0, by simp⟩

/-- Key starting with byte one, distinct from `zeroKey`, for witnesses. -/
def oneKey : XOnlyPublicKey := ⟨1 :: List.replicate 31 0, by simp⟩

/-- String of 64 zero hex characters (parses to `zeroKey`). -/
def zeros64 : String :=
  "0000000000000000000000000000000000000000000000000000000000000000"

/-- String of 63 zero hex characters (malformed: odd length, not 64). -/
def zeros63 : String :=
  "000000000000000000000000000000000000000000000000000000000000000"

/-- Parameter set of the spec's worked example: amount 100000 on testnet,
one keeper, no challengers. -/
def exampleParams : PegInParams :=
  { depositor_pubkey := zeros64
    vault_provider_pubkey := zeros64
    vault_keeper_pubkeys := [zeros64]
    universal_challenger_pubkeys := []
    pegin_amount := 100000
    network := "testnet" }

/-- Parameter set with a malformed depositor key AND a misspelled network,
showing which error wins. -/
def cexParams : PegInParams :=
  { depositor_pubkey := zeros63
    vault_provider_pubkey := zeros64
    vault_keeper_pubkeys := [zeros64]
    universal_challenger_pubkeys := []
    pegin_amount := 100000
    network := "mainet" }

/-- Parameter set with a malformed depositor key and a valid network. -/
def badKeyParams : PegInParams :=
  { depositor_pubkey := zeros63
    vault_provider_pubkey := zeros64
    vault_keeper_pubkeys := [zeros64]
    universal_challenger_pubkeys := []
    pegin_amount := 100000
    network := "testnet" }

/-- Valid parameter set with amount zero. -/
def zeroAmountParams : PegInParams :=
  { depositor_pubkey := zeros64
    vault_provider_pubkey := zeros64
    vault_keeper_pubkeys := [zeros64]
    universal_challenger_pubkeys := [zeros64]
    pegin_amount := 0
    network := "regtest" }

/-- Valid parameter set whose amount exceeds the total bitcoin supply of
2.1e15 satoshis. -/
def hugeAmountParams : PegInParams :=
  { depositor_pubkey := zeros64
    vault_provider_pubkey := zeros64
    vault_keeper_pubkeys := [zeros64]
    universal_challenger_pubkeys := []
    pegin_amount := 3000000000000000
    network := "bitcoin" }

/-! Helper lemmas. -/

/-- Every branch of the script-integer loop emits at least one byte. -/
theorem scriptIntLoop_ne_nil (a : Nat) (neg : Bool) : scriptIntLoop a neg ≠ [] := by
  rw [scriptIntLoop]
  split
  · simp
  · split <;> simp

/-- The decoder inverts the encoding loop on positive values. -/
theorem decodeScriptNum_scriptIntLoop (a : Nat) (h : 1 ≤ a) :
    decodeScriptNum (scriptIntLoop a false) = (a : Int) := by
  induction a using Nat.strong_induction_on with
  | _ a ih =>
    rw [scriptIntLoop]
    split
    case isTrue h1 =>
      obtain ⟨c, rest, hcr⟩ :=
        List.exists_cons_of_ne_nil (scriptIntLoop_ne_nil (a / 256) false)
      rw [hcr, decodeScriptNum, ← hcr,
        ih (a / 256) (Nat.div_lt_self (by omega) (by omega)) (by omega)]
      push_cast
      omega
    case isFalse h1 =>
      split
      case isTrue h2 => simp [decodeScriptNum]
      case isFalse h2 => simp [decodeScriptNum, h2]

/-- The integer pushed by `pushInt` for a positive key count decodes back
to that count. -/
theorem decodeThreshold_pushInt (n : Nat) (h : 1 ≤ n) :
    decodeThreshold (pushInt (n : Int)) = some ((n : Int)) := by
  by_cases h16 : n ≤ 16
  · have hcond : ((n : Int) = -1 ∨ (1 ≤ (n : Int) ∧ (n : Int) ≤ 16)) := by
      right
      constructor <;> omega
    rw [pushInt, if_pos hcond]
    have htn : ((n : Int) + 0x50).toNat = n + 0x50 := by omega
    rw [htn, decodeThreshold]
    rw [if_neg (by omega), if_pos (by omega)]
    congr 1
    push_cast
    omega
  · have hcond1 : ¬((n : Int) = -1 ∨ (1 ≤ (n : Int) ∧ (n : Int) ≤ 16)) := by
      push_neg
      refine ⟨by omega, fun _ => by omega⟩
    rw [pushInt, if_neg hcond1, if_neg (by omega : ¬(n : Int) = 0)]
    have hsb : scriptIntBytes (n : Int) = scriptIntLoop n false := by
      rw [scriptIntBytes, if_neg (by omega : ¬(n : Int) = 0)]
      have h1 : (n : Int).natAbs = n := Int.natAbs_ofNat n
      have h2 : decide ((n : Int) < 0) = false := by
        simp only [decide_eq_false_iff_not]
        omega
      rw [h1, h2]
    rw [hsb]
    obtain ⟨c, rest, hcr⟩ := List.exists_cons_of_ne_nil (scriptIntLoop_ne_nil n false)
    rw [hcr]
    have hlen1 : 1 ≤ (c :: rest).length := by simp
    simp only [decodeThreshold]
    rw [if_pos (by simp), ← hcr, decodeScriptNum_scriptIntLoop n (by omega)]

/-- Pushing a key always occupies 33 bytes. -/
theorem pushKey_length (k : XOnlyPublicKey) : (pushKey k).length = 33 := by
  simp [pushKey, k.bytes_len]

/-- Key pushes are injective. -/
theorem pushKey_inj {a b : XOnlyPublicKey} (h : pushKey a = pushKey b) : a = b := by
  apply XOnlyPublicKey.ext
  simpa [pushKey] using h

/-- The per-key push-and-check blocks have fixed width 34. -/
theorem flat_blocks_length (op : Nat) (l : List XOnlyPublicKey) :
    (l.flatMap (fun pk => pushKey pk ++ [op])).length = 34 * l.length := by
  induction l with
  | nil => simp
  | cons k t ih =>
    simp only [List.flatMap_cons, List.length_append, List.length_cons, ih,
      pushKey_length]
    simp
    ring

/-- Fixed-width key blocks make the encoding of a key list injective among
lists of equal length. -/
theorem flat_blocks_inj (op : Nat) :
    ∀ l1 l2 : List XOnlyPublicKey, l1.length = l2.length →
      l1.flatMap (fun pk => pushKey pk ++ [op]) =
        l2.flatMap (fun pk => pushKey pk ++ [op]) → l1 = l2 := by
  intro l1
  induction l1 with
  | nil =>
    intro l2 hlen _
    cases l2 with
    | nil => rfl
    | cons k2 t2 => simp at hlen
  | cons k t ih =>
    intro l2 hlen heq
    cases l2 with
    | nil => simp at hlen
    | cons k2 t2 =>
      simp only [List.flatMap_cons, List.append_assoc] at heq
      have hl1 : (pushKey k).length = (pushKey k2).length := by
        simp [pushKey_length]
      obtain ⟨h1, h2⟩ := List.append_inj heq hl1
      have h3 := List.append_inj h2 (by rfl : ([op] : List Nat).length = [op].length)
      rw [pushKey_inj h1, ih t2 (by simpa using hlen) h3.2]

/-- Among key lists of equal length, equal multisig scripts come from
equal key lists. -/
theorem build_multisig_script_inj {l1 l2 : List XOnlyPublicKey} {b1 b2 : List Nat}
    (hlen : l1.length = l2.length)
    (h1 : build_multisig_script l1 false = .ok b1)
    (h2 : build_multisig_script l2 false = .ok b2)
    (heq : b1 = b2) : l1 = l2 := by
  cases l1 with
  | nil => simp [build_multisig_script] at h1
  | cons k t =>
    cases l2 with
    | nil => simp [build_multisig_script] at h2
    | cons k2 t2 =>
      have hlt : t.length = t2.length := by simpa using hlen
      simp only [build_multisig_script, Except.ok.injEq] at h1 h2
      rw [← h1, ← h2] at heq
      obtain ⟨eA, _⟩ := List.append_inj heq
        (by simp only [List.length_append, List.length_cons, List.length_nil,
          pushKey_length, flat_blocks_length, hlt])
      obtain ⟨eB, eC⟩ := List.append_inj eA (by simp [pushKey_length])
      obtain ⟨eD, _⟩ := List.append_inj eB (by simp [pushKey_length])
      rw [pushKey_inj eD, flat_blocks_inj OP_CHECKSIGADD t t2 hlt eC]

/-- With a non-empty merged keeper+challenger list, the payout script is
the role-signature bytes followed by the non-verify multisig block. -/
theorem payout_script_merged (c : PeginPayoutConnector)
    (h : c.vault_keepers ++ c.universal_challengers ≠ []) :
    ∃ ms, build_multisig_script (c.vault_keepers ++ c.universal_challengers) false =
        .ok ms ∧
      generate_payout_script c = some
        ((pushKey c.depositor ++ [OP_CHECKSIGVERIFY] ++
          pushKey c.vault_provider ++ [OP_CHECKSIGVERIFY]) ++ ms) := by
  obtain ⟨k, t, hk⟩ := List.exists_cons_of_ne_nil h
  cases hbuild : build_multisig_script (c.vault_keepers ++ c.universal_challengers)
      false with
  | error e => rw [hk] at hbuild; simp [build_multisig_script] at hbuild
  | ok ms =>
    refine ⟨ms, rfl, ?_⟩
    simp only [generate_payout_script, hbuild, combine_script_components, List.foldl]
    simp

/-- Specialization: a non-empty vault-keeper list already forces a
non-empty merged list. -/
theorem payout_script_from_keepers (c : PeginPayoutConnector)
    (h : c.vault_keepers ≠ []) :
    ∃ ms, build_multisig_script (c.vault_keepers ++ c.universal_challengers) false =
        .ok ms ∧
      generate_payout_script c = some
        ((pushKey c.depositor ++ [OP_CHECKSIGVERIFY] ++
          pushKey c.vault_provider ++ [OP_CHECKSIGVERIFY]) ++ ms) := by
  apply payout_script_merged
  intro hc
  exact h (List.append_eq_nil.mp hc).1

/-- Construction with a non-empty keeper list succeeds and stores the
collections unchanged. -/
theorem connector_new_ok (d v : XOnlyPublicKey) (ks cs : List XOnlyPublicKey)
    (h : ks ≠ []) :
    PeginPayoutConnector.new d v ks cs = .ok ⟨d, v, ks, cs⟩ := by
  simp [PeginPayoutConnector.new, h]

/-- A successful key parse means the underlying decode succeeded. -/
theorem parse_pubkey_ok {lib : BitcoinLib} {s : String} {k : XOnlyPublicKey}
    (h : parse_pubkey lib s = .ok k) : parseXOnly? lib s = some k := by
  rw [parse_pubkey] at h
  cases hp : parseXOnly? lib s with
  | some k2 => rw [hp] at h; simp only [Except.ok.injEq] at h; rw [h]
  | none => rw [hp] at h; simp at h

/-- A failed key parse means the decode failed, and pins the message. -/
theorem parse_pubkey_error {lib : BitcoinLib} {s : String} {e : Error}
    (h : parse_pubkey lib s = .error e) :
    parseXOnly? lib s = none ∧
      e = .InvalidPublicKey (s ++ ": " ++ lib.parseErrMsg s) := by
  rw [parse_pubkey] at h
  cases hp : parseXOnly? lib s with
  | some k => rw [hp] at h; simp at h
  | none =>
    rw [hp] at h
    simp only [Except.error.injEq] at h
    exact ⟨rfl, h.symm⟩

/-- A failed collect pins the failing string and the propagated error. -/
theorem parse_pubkeys_error {lib : BitcoinLib} {l : List String} {e : Error}
    (h : parse_pubkeys lib l = .error e) :
    ∃ s ∈ l, parseXOnly? lib s = none ∧
      e = .InvalidPublicKey (s ++ ": " ++ lib.parseErrMsg s) := by
  induction l with
  | nil => simp [parse_pubkeys] at h
  | cons s t ih =>
    rw [parse_pubkeys] at h
    cases hs : parse_pubkey lib s with
    | error e2 =>
      rw [hs] at h
      simp only [Except.error.injEq] at h
      obtain ⟨hnone, hmsg⟩ := parse_pubkey_error hs
      exact ⟨s, by simp, hnone, by rw [← h, hmsg]⟩
    | ok k =>
      rw [hs] at h
      cases ht : parse_pubkeys lib t with
      | error e2 =>
        rw [ht] at h
        simp only [Except.error.injEq] at h
        obtain ⟨s2, hmem, hnone, hmsg⟩ := ih (by rw [ht, h])
        exact ⟨s2, by simp [hmem], hnone, hmsg⟩
      | ok ks => rw [ht] at h; simp at h

/-- A successful collect means every string decodes. -/
theorem parse_pubkeys_ok {lib : BitcoinLib} {l : List String}
    {ks : List XOnlyPublicKey} (h : parse_pubkeys lib l = .ok ks) :
    ∀ s ∈ l, parseXOnly? lib s ≠ none := by
  induction l generalizing ks with
  | nil => simp
  | cons s t ih =>
    rw [parse_pubkeys] at h
    cases hs : parse_pubkey lib s with
    | error e2 => rw [hs] at h; simp at h
    | ok k =>
      rw [hs] at h
      cases ht : parse_pubkeys lib t with
      | error e2 => rw [ht] at h; simp at h
      | ok ks2 =>
        intro s2 hmem
        rcases List.mem_cons.mp hmem with h1 | h2
        · rw [h1, parse_pubkey_ok hs]; simp
        · exact ih ht s2 h2

/-- Core success lemma for the transaction builder: valid inputs with a
non-empty keeper list produce the fixed-shape single-output transaction
paying to the connector's taproot script-pubkey. -/
theorem new_unfunded_core (lib : BitcoinLib) (params : PegInParams)
    (net : Network) (d v : XOnlyPublicKey) (ks cs : List XOnlyPublicKey)
    (hnet : parse_network params.network = .ok net)
    (hd : parse_pubkey lib params.depositor_pubkey = .ok d)
    (hv : parse_pubkey lib params.vault_provider_pubkey = .ok v)
    (hks : parse_pubkeys lib params.vault_keeper_pubkeys = .ok ks)
    (hcs : parse_pubkeys lib params.universal_challenger_pubkeys = .ok cs)
    (hne : ks ≠ []) :
    ∃ spk, generate_taproot_script_pubkey lib ⟨d, v, ks, cs⟩ net = some spk ∧
      new_unfunded_peg_in_tx lib params = some (.ok
        { version := 2, lock_time := 0, input := [],
          output := [{ value := params.pegin_amount, script_pubkey := spk }] }) := by
  obtain ⟨ms, hms, hscript⟩ :=
    payout_script_from_keepers ⟨d, v, ks, cs⟩ (by simpa using hne)
  refine ⟨lib.taprootScriptPubkey
    ((pushKey d ++ [OP_CHECKSIGVERIFY] ++ pushKey v ++ [OP_CHECKSIGVERIFY]) ++ ms)
    net, ?_, ?_⟩
  · rw [generate_taproot_script_pubkey, hscript]
    rfl
  · simp only [new_unfunded_peg_in_tx, hnet, hd, hv, hks, hcs,
      connector_new_ok d v ks cs hne, generate_taproot_script_pubkey, hscript,
      Option.map_some']

/-! Claim theorems. -/

/-- C1: for every connector with a non-empty vault-keeper list,
`generate_payout_script` returns exactly the byte concatenation of (push
depositor key, OP_CHECKSIGVERIFY, push vault-provider key,
OP_CHECKSIGVERIFY) followed by the threshold-multisig block built with the
non-verify comparison variant over the vault-keeper collection followed by
the universal-challenger collection, each in its original order. -/
theorem generate_payout_script_concat (c : PeginPayoutConnector)
    (h : c.vault_keepers ≠ []) :
    ∃ ms, build_multisig_script (c.vault_keepers ++ c.universal_challengers) false =
        .ok ms ∧
      generate_payout_script c = some
        ((pushKey c.depositor ++ [OP_CHECKSIGVERIFY] ++
          pushKey c.vault_provider ++ [OP_CHECKSIGVERIFY]) ++ ms) :=
  payout_script_from_keepers c h

/-- Witness for C1 at a concrete connector. -/
theorem generate_payout_script_concat_witness :
    ∃ ms, build_multisig_script ([zeroKey] ++ [oneKey]) false = .ok ms ∧
      generate_payout_script ⟨zeroKey, oneKey, [zeroKey], [oneKey]⟩ = some
        ((pushKey zeroKey ++ [OP_CHECKSIGVERIFY] ++
          pushKey oneKey ++ [OP_CHECKSIGVERIFY]) ++ ms) :=
  generate_payout_script_concat ⟨zeroKey, oneKey, [zeroKey], [oneKey]⟩ (by decide)

/-- C2: for every non-empty key list and either verify flag,
`build_multisig_script` succeeds with: push key 0 and OP_CHECKSIG, then for
each remaining key in order a push and OP_CHECKSIGADD, then a push of the
key count as a script integer and OP_NUMEQUALVERIFY (flag set) or
OP_NUMEQUAL (flag clear); the pushed threshold decodes to the list
length. -/
theorem build_multisig_script_structure (keys : List XOnlyPublicKey)
    (verify : Bool) (k0 : XOnlyPublicKey) (rest : List XOnlyPublicKey)
    (hk : keys = k0 :: rest) :
    build_multisig_script keys verify = .ok
      ((pushKey k0 ++ [OP_CHECKSIG]) ++
        rest.flatMap (fun pk => pushKey pk ++ [OP_CHECKSIGADD]) ++
        (pushInt (keys.length : Int) ++
          [if verify then OP_NUMEQUALVERIFY else OP_NUMEQUAL])) ∧
    decodeThreshold (pushInt (keys.length : Int)) = some ((keys.length : Int)) := by
  subst hk
  exact ⟨rfl, decodeThreshold_pushInt _ (by simp)⟩

/-- Witness for C2 at a two-key list with the verify flag set. -/
theorem build_multisig_script_structure_witness :
    build_multisig_script [zeroKey, oneKey] true = .ok
      ((pushKey zeroKey ++ [OP_CHECKSIG]) ++
        [oneKey].flatMap (fun pk => pushKey pk ++ [OP_CHECKSIGADD]) ++
        (pushInt (([zeroKey, oneKey] : List XOnlyPublicKey).length : Int) ++
          [if true then OP_NUMEQUALVERIFY else OP_NUMEQUAL])) ∧
    decodeThreshold (pushInt (([zeroKey, oneKey] : List XOnlyPublicKey).length : Int)) =
      some ((([zeroKey, oneKey] : List XOnlyPublicKey).length : Int)) :=
  build_multisig_script_structure [zeroKey, oneKey] true zeroKey [oneKey] rfl

/-- C4: connector construction fails with the empty-vault-keepers error
exactly when the keeper collection is empty, and otherwise succeeds
storing the four role-key collections unchanged. -/
theorem connector_new_cases (d v : XOnlyPublicKey) (ks cs : List XOnlyPublicKey) :
    (ks = [] →
      PeginPayoutConnector.new d v ks cs =
        .error "At least one vault keeper is required") ∧
    (ks ≠ [] → PeginPayoutConnector.new d v ks cs = .ok ⟨d, v, ks, cs⟩) := by
  constructor
  · intro h
    subst h
    rfl
  · intro h
    exact connector_new_ok d v ks cs h

/-- Witness for C4: failure on an empty keeper list even with a non-empty
challenger list, success otherwise. -/
theorem connector_new_cases_witness :
    PeginPayoutConnector.new zeroKey oneKey [] [oneKey] =
      .error "At least one vault keeper is required" ∧
    PeginPayoutConnector.new zeroKey oneKey [zeroKey] [oneKey] =
      .ok ⟨zeroKey, oneKey, [zeroKey], [oneKey]⟩ :=
  ⟨(connector_new_cases zeroKey oneKey [] [oneKey]).1 rfl,
   (connector_new_cases zeroKey oneKey [zeroKey] [oneKey]).2 (by decide)⟩

/-- C5: `build_multisig_script` on an empty key list fails with the
empty-key-set error for either verify flag, returning no script bytes. -/
theorem build_multisig_script_empty (verify : Bool) :
    build_multisig_script [] verify =
      .error "At least one public key is required for multisig" := rfl

/-- C9: any connector produced by the public constructor has a non-empty
merged keeper+challenger list, so the multisig build inside
`generate_payout_script` cannot fail and script generation is total. -/
theorem payout_script_total (d v : XOnlyPublicKey) (ks cs : List XOnlyPublicKey)
    (c : PeginPayoutConnector) (h : PeginPayoutConnector.new d v ks cs = .ok c) :
    (∃ ms, build_multisig_script (c.vault_keepers ++ c.universal_challengers) false =
      .ok ms) ∧ ∃ bs, generate_payout_script c = some bs := by
  by_cases he : ks = []
  · subst he
    simp [PeginPayoutConnector.new] at h
  · rw [connector_new_ok d v ks cs he] at h
    injection h with h2
    subst h2
    obtain ⟨ms, hms, hscript⟩ :=
      payout_script_from_keepers ⟨d, v, ks, cs⟩ (by simpa using he)
    exact ⟨⟨ms, hms⟩, ⟨_, hscript⟩⟩

/-- Witness for C9 at a concretely constructed connector. -/
theorem payout_script_total_witness :
    (∃ ms, build_multisig_script
      ((⟨zeroKey, oneKey, [zeroKey], []⟩ : PeginPayoutConnector).vault_keepers ++
        (⟨zeroKey, oneKey, [zeroKey], []⟩ : PeginPayoutConnector).universal_challengers)
      false = .ok ms) ∧
    ∃ bs, generate_payout_script ⟨zeroKey, oneKey, [zeroKey], []⟩ = some bs :=
  payout_script_total zeroKey oneKey [zeroKey] [] ⟨zeroKey, oneKey, [zeroKey], []⟩
    (by decide)

/-- C3: for every set of valid inputs (parseable network, parseable keys,
non-empty keeper list, any amount) the builder returns a transaction with
version 2, lock-time zero, no inputs, and one output paying the given
amount to the connector's taproot script-pubkey for the parsed network
computed from the same keys. -/
theorem new_unfunded_peg_in_tx_wellformed (lib : BitcoinLib)
    (params : PegInParams) (net : Network) (d v : XOnlyPublicKey)
    (ks cs : List XOnlyPublicKey)
    (hnet : parse_network params.network = .ok net)
    (hd : parse_pubkey lib params.depositor_pubkey = .ok d)
    (hv : parse_pubkey lib params.vault_provider_pubkey = .ok v)
    (hks : parse_pubkeys lib params.vault_keeper_pubkeys = .ok ks)
    (hcs : parse_pubkeys lib params.universal_challenger_pubkeys = .ok cs)
    (hne : ks ≠ []) :
    ∃ spk, generate_taproot_script_pubkey lib ⟨d, v, ks, cs⟩ net = some spk ∧
      new_unfunded_peg_in_tx lib params = some (.ok
        { version := 2, lock_time := 0, input := [],
          output := [{ value := params.pegin_amount, script_pubkey := spk }] }) :=
  new_unfunded_core lib params net d v ks cs hnet hd hv hks hcs hne

/-- Witness for C3 at the spec's worked example. -/
theorem new_unfunded_peg_in_tx_wellformed_witness :
    ∃ spk, generate_taproot_script_pubkey trivialLib
        ⟨zeroKey, zeroKey, [zeroKey], []⟩ .testnet = some spk ∧
      new_unfunded_peg_in_tx trivialLib exampleParams = some (.ok
        { version := 2, lock_time := 0, input := [],
          output := [{ value := 100000, script_pubkey := spk }] }) :=
  new_unfunded_peg_in_tx_wellformed trivialLib exampleParams .testnet zeroKey zeroKey
    [zeroKey] [] (by decide) (by decide) (by decide) (by decide) (by decide)
    (by decide)

/-- C6: the network parser accepts exactly the case-insensitive strings
bitcoin, mainnet (both to the same network), testnet, regtest and signet,
and any other string makes the parser — and hence the builder — fail with
InvalidNetwork carrying that string, with no transaction constructed. -/
theorem parse_network_cases (s : String) :
    ((toLowerStr s = "bitcoin" ∨ toLowerStr s = "mainnet") →
      parse_network s = .ok .bitcoin) ∧
    (toLowerStr s = "testnet" → parse_network s = .ok .testnet) ∧
    (toLowerStr s = "regtest" → parse_network s = .ok .regtest) ∧
    (toLowerStr s = "signet" → parse_network s = .ok .signet) ∧
    (toLowerStr s ≠ "bitcoin" → toLowerStr s ≠ "mainnet" → toLowerStr s ≠ "testnet" →
      toLowerStr s ≠ "regtest" → toLowerStr s ≠ "signet" →
      parse_network s = .error (.InvalidNetwork s) ∧
      ∀ (lib : BitcoinLib) (params : PegInParams), params.network = s →
        new_unfunded_peg_in_tx lib params = some (.error (.InvalidNetwork s))) := by
  refine ⟨?_, ?_, ?_, ?_, ?_⟩
  · intro h
    simp only [parse_network]
    rw [if_pos h]
  · intro h
    simp only [parse_network]
    rw [if_neg (by rw [h]; decide), if_pos h]
  · intro h
    simp only [parse_network]
    rw [if_neg (by rw [h]; decide), if_neg (by rw [h]; decide), if_pos h]
  · intro h
    simp only [parse_network]
    rw [if_neg (by rw [h]; decide), if_neg (by rw [h]; decide),
      if_neg (by rw [h]; decide), if_pos h]
  · intro h1 h2 h3 h4 h5
    have hp : parse_network s = .error (.InvalidNetwork s) := by
      simp only [parse_network]
      rw [if_neg (not_or.mpr ⟨h1, h2⟩), if_neg h3, if_neg h4, if_neg h5]
    refine ⟨hp, ?_⟩
    intro lib params hps
    simp only [new_unfunded_peg_in_tx, hps, hp]

/-- Witness for C6: mixed-case acceptance and rejection of a typo both at
the parser and through the builder. -/
theorem parse_network_cases_witness :
    parse_network "TestNet" = .ok .testnet ∧
    parse_network "mainet" = .error (.InvalidNetwork "mainet") ∧
    new_unfunded_peg_in_tx trivialLib cexParams =
      some (.error (.InvalidNetwork "mainet")) := by
  refine ⟨(parse_network_cases "TestNet").2.1 (by decide), ?_, ?_⟩
  · exact ((parse_network_cases "mainet").2.2.2.2 (by decide) (by decide) (by decide)
      (by decide) (by decide)).1
  · exact ((parse_network_cases "mainet").2.2.2.2 (by decide) (by decide) (by decide)
      (by decide) (by decide)).2 trivialLib cexParams rfl

/-- C7 counterexample: with a malformed (63-character) depositor key but
also a misspelled network, the builder fails with InvalidNetwork, not
InvalidPublicKey — refuting the claim over every input with a bad key. -/
theorem invalid_key_masked_by_network :
    parseXOnly? trivialLib zeros63 = none ∧
    zeros63 ∈ allKeyStrings cexParams ∧
    new_unfunded_peg_in_tx trivialLib cexParams =
      some (.error (.InvalidNetwork "mainet")) ∧
    resultIsInvalidPublicKey (new_unfunded_peg_in_tx trivialLib cexParams) = false :=
  ⟨by decide, by decide, by decide, by decide⟩

/-- C7 (amended): provided the network string parses, any input in which
some role or collection key string fails to decode makes the builder fail
with InvalidPublicKey whose message identifies an offending string, and no
transaction is constructed. -/
theorem invalid_key_reported (lib : BitcoinLib) (params : PegInParams)
    (net : Network) (hnet : parse_network params.network = .ok net)
    (hbad : ∃ s ∈ allKeyStrings params, parseXOnly? lib s = none) :
    ∃ s ∈ allKeyStrings params, parseXOnly? lib s = none ∧
      new_unfunded_peg_in_tx lib params =
        some (.error (.InvalidPublicKey (s ++ ": " ++ lib.parseErrMsg s))) := by
  cases hd : parse_pubkey lib params.depositor_pubkey with
  | error e =>
    obtain ⟨hnone, hmsg⟩ := parse_pubkey_error hd
    refine ⟨params.depositor_pubkey, by simp [allKeyStrings], hnone, ?_⟩
    simp only [new_unfunded_peg_in_tx, hnet, hd, hmsg]
  | ok d =>
    cases hv : parse_pubkey lib params.vault_provider_pubkey with
    | error e =>
      obtain ⟨hnone, hmsg⟩ := parse_pubkey_error hv
      refine ⟨params.vault_provider_pubkey, by simp [allKeyStrings], hnone, ?_⟩
      simp only [new_unfunded_peg_in_tx, hnet, hd, hv, hmsg]
    | ok v =>
      cases hks : parse_pubkeys lib params.vault_keeper_pubkeys with
      | error e =>
        obtain ⟨s, hmem, hnone, hmsg⟩ := parse_pubkeys_error hks
        refine ⟨s, by simp [allKeyStrings, hmem], hnone, ?_⟩
        simp only [new_unfunded_peg_in_tx, hnet, hd, hv, hks, hmsg]
      | ok ks =>
        cases hcs : parse_pubkeys lib params.universal_challenger_pubkeys with
        | error e =>
          obtain ⟨s, hmem, hnone, hmsg⟩ := parse_pubkeys_error hcs
          refine ⟨s, by simp [allKeyStrings, hmem], hnone, ?_⟩
          simp only [new_unfunded_peg_in_tx, hnet, hd, hv, hks, hcs, hmsg]
        | ok cs =>
          exfalso
          obtain ⟨s, hmem, hnone⟩ := hbad
          simp only [allKeyStrings, List.mem_cons, List.mem_append] at hmem
          rcases hmem with h1 | h1 | h1 | h1
          · rw [h1, parse_pubkey_ok hd] at hnone
            exact Option.some_ne_none _ hnone
          · rw [h1, parse_pubkey_ok hv] at hnone
            exact Option.some_ne_none _ hnone
          · exact parse_pubkeys_ok hks s h1 hnone
          · exact parse_pubkeys_ok hcs s h1 hnone

/-- Witness for the amended C7 with a valid network and a 63-character
depositor key. -/
theorem invalid_key_reported_witness :
    ∃ s ∈ allKeyStrings badKeyParams, parseXOnly? trivialLib s = none ∧
      new_unfunded_peg_in_tx trivialLib badKeyParams =
        some (.error (.InvalidPublicKey
          (s ++ ": " ++ trivialLib.parseErrMsg s))) :=
  invalid_key_reported trivialLib badKeyParams .testnet (by decide)
    ⟨zeros63, by decide, by decide⟩

/-- C8: holding the depositor, vault-provider and vault-keeper keys fixed,
any genuine reordering of the universal-challenger list changes the bytes
produced by `generate_payout_script`. -/
theorem payout_script_order_sensitive (d v : XOnlyPublicKey)
    (ks cs cs' : List XOnlyPublicKey) (hperm : cs'.Perm cs) (hne : cs' ≠ cs) :
    generate_payout_script ⟨d, v, ks, cs'⟩ ≠ generate_payout_script ⟨d, v, ks, cs⟩ := by
  have hlen : cs'.length = cs.length := hperm.length_eq
  by_cases hm : ks ++ cs = []
  · obtain ⟨hks, hcs⟩ := List.append_eq_nil.mp hm
    subst hcs
    exact absurd (List.Perm.eq_nil hperm) hne
  · have hm' : ks ++ cs' ≠ [] := by
      intro hc
      obtain ⟨hks, hcs'⟩ := List.append_eq_nil.mp hc
      subst hcs'
      have h0 : cs.length = 0 := by simpa using hlen.symm
      have hcse : cs = [] := List.length_eq_zero.mp h0
      exact hm (by rw [hks, hcse, List.append_nil])
    obtain ⟨ms, hb, hs⟩ := payout_script_merged ⟨d, v, ks, cs⟩ (by simpa using hm)
    obtain ⟨ms', hb', hs'⟩ := payout_script_merged ⟨d, v, ks, cs'⟩ (by simpa using hm')
    rw [hs, hs']
    intro hcontra
    rw [Option.some.injEq] at hcontra
    have h2 : ms' = ms := (List.append_inj hcontra rfl).2
    have hlen2 : (ks ++ cs').length = (ks ++ cs).length := by simp [hlen]
    have h3 : ks ++ cs' = ks ++ cs := build_multisig_script_inj hlen2 hb' hb h2
    exact hne (List.append_inj h3 rfl).2

/-- Witness for C8: swapping two distinct challengers changes the script. -/
theorem payout_script_order_sensitive_witness :
    generate_payout_script ⟨zeroKey, zeroKey, [zeroKey], [oneKey, zeroKey]⟩ ≠
      generate_payout_script ⟨zeroKey, zeroKey, [zeroKey], [zeroKey, oneKey]⟩ :=
  payout_script_order_sensitive zeroKey zeroKey [zeroKey] [zeroKey, oneKey]
    [oneKey, zeroKey] (List.Perm.swap zeroKey oneKey []) (by decide)

/-- C10: the builder performs no validation on the satoshi amount: for
every 64-bit amount, including zero and values beyond the total supply,
construction succeeds on otherwise-valid inputs and the sole output's
value equals the amount exactly. -/
theorem pegin_amount_not_validated (lib : BitcoinLib) (params : PegInParams)
    (net : Network) (d v : XOnlyPublicKey) (ks cs : List XOnlyPublicKey)
    (hnet : parse_network params.network = .ok net)
    (hd : parse_pubkey lib params.depositor_pubkey = .ok d)
    (hv : parse_pubkey lib params.vault_provider_pubkey = .ok v)
    (hks : parse_pubkeys lib params.vault_keeper_pubkeys = .ok ks)
    (hcs : parse_pubkeys lib params.universal_challenger_pubkeys = .ok cs)
    (hne : ks ≠ []) (_hamt : params.pegin_amount < 2 ^ 64) :
    ∃ tx, new_unfunded_peg_in_tx lib params = some (.ok tx) ∧
      tx.output.map TxOut.value = [params.pegin_amount] := by
  obtain ⟨spk, _, htx⟩ :=
    new_unfunded_core lib params net d v ks cs hnet hd hv hks hcs hne
  exact ⟨_, htx, by simp⟩

/-- Witness for C10 at amount zero and at an amount exceeding the total
bitcoin supply. -/
theorem pegin_amount_not_validated_witness :
    (∃ tx, new_unfunded_peg_in_tx trivialLib zeroAmountParams = some (.ok tx) ∧
      tx.output.map TxOut.value = [zeroAmountParams.pegin_amount]) ∧
    ∃ tx, new_unfunded_peg_in_tx trivialLib hugeAmountParams = some (.ok tx) ∧
      tx.output.map TxOut.value = [hugeAmountParams.pegin_amount] :=
  ⟨pegin_amount_not_validated trivialLib zeroAmountParams .regtest zeroKey zeroKey
      [zeroKey] [zeroKey] (by decide) (by decide) (by decide) (by decide) (by decide)
      (by decide) (by decide),
   pegin_amount_not_validated trivialLib hugeAmountParams .bitcoin zeroKey zeroKey
      [zeroKey] [] (by decide) (by decide) (by decide) (by decide) (by decide)
      (by decide) (by decide)⟩

end BabylonVault
